import Mathlib

/-!
Verification of `src/architectures/huggingface_architecture.py`
(`HuggingFaceArchitecture`, a LightningModule wrapping a seq2seq model).

The file shallowly embeds the module's logic:
* the learning-rate schedule built in `configure_optimizers`
  (lines 135-163): `warmup_steps`, `t_max`, `eta_min`, the warmup
  `lr_lambda`, the external `CosineAnnealingLR` closed form, and their
  `SequentialLR` composition with milestone `warmup_steps`;
* the optimizer dispatch on the `strategy` string (lines 113-134);
* `forward` (lines 48-60), `step` (lines 62-111) and `predict_step`
  (lines 284-302), with the model, tokenizer and distributed gather as
  abstract collaborators satisfying their documented contracts;
* the epoch-end hooks (lines 304-311) over an explicit metric-accumulator
  state.

Python floats are idealized as exact rationals (and as reals where the
cosine phase forces it); tensors are nested lists.
-/

namespace HuggingFaceArchitecture

/-- Python `int(x)` on a float: truncation toward zero. -/
def pyInt (x : ℚ) : ℤ := if 0 ≤ x then ⌊x⌋ else ⌈x⌉

/-- Line 136: `warmup_steps = int(total_steps * self.warmup_ratio)`. -/
def warmup_steps_of (total_steps : ℕ) (warmup_ratio : ℚ) : ℤ :=
  pyInt ((total_steps : ℚ) * warmup_ratio)

/-- Line 137: `t_max = total_steps - warmup_steps`. -/
def t_max_of (total_steps : ℕ) (warmup_ratio : ℚ) : ℤ :=
  (total_steps : ℤ) - warmup_steps_of total_steps warmup_ratio

/-- Line 138: `eta_min = self.lr * self.eta_min_ratio`. -/
def eta_min_of (lr eta_min_ratio : ℚ) : ℚ := lr * eta_min_ratio

/-- Lines 140-143: the warmup multiplier
`lr_lambda(current_step) = current_step / max(1, warmup_steps)` while
`current_step < warmup_steps`, and `1.0` afterwards. -/
def lr_lambda (warmup_steps : ℕ) (current_step : ℕ) : ℚ :=
  if current_step < warmup_steps then
    (current_step : ℚ) / (max 1 warmup_steps : ℕ)
  else 1

/-- External contract of `torch.optim.lr_scheduler.CosineAnnealingLR`
(lines 149-153): at internal step `t` the learning rate is
`eta_min + (lr - eta_min) * (1 + cos(t * pi / t_max)) / 2`. -/
noncomputable def cosineAnnealingLR (lr eta_min : ℝ) (t_max : ℕ) (t : ℕ) : ℝ :=
  eta_min + (lr - eta_min) * (1 + Real.cos ((t : ℝ) * Real.pi / (t_max : ℝ))) / 2

/-- Lines 145-163: `SequentialLR` over `[warmup_scheduler, main_scheduler]`
with `milestones=[warmup_steps]`: steps below the milestone are served by
the `LambdaLR` warmup scheduler, steps at or above it by the cosine
scheduler restarted at internal step `0`. -/
noncomputable def sequentialLR (lr eta_min : ℝ) (warmup_steps t_max : ℕ)
    (s : ℕ) : ℝ :=
  if s < warmup_steps then lr * ((lr_lambda warmup_steps s : ℚ) : ℝ)
  else cosineAnnealingLR lr eta_min t_max (s - warmup_steps)

/-- The kind of optimizer constructed in `configure_optimizers`
(lines 113-134). -/
inductive OptimizerKind where
  | fusedAdam
  | deepSpeedCPUAdam
  | adamW
deriving DecidableEq

/-- An optimizer handle: its kind and the `(lr, weight_decay)` it was
constructed with (the parameter set is the module's either way). -/
structure Optimizer where
  kind : OptimizerKind
  lr : ℚ
  weight_decay : ℚ
deriving DecidableEq

/-- Lines 113-134: the `strategy` dispatch of `configure_optimizers`. -/
def select_optimizer (strategy : String) (lr weight_decay : ℚ) : Optimizer :=
  if strategy = "deepspeed_stage_3" then
    { kind := .fusedAdam, lr := lr, weight_decay := weight_decay }
  else if strategy = "deepspeed_stage_2_offload" ∨
      strategy = "deepspeed_stage_3_offload" then
    { kind := .deepSpeedCPUAdam, lr := lr, weight_decay := weight_decay }
  else
    { kind := .adamW, lr := lr, weight_decay := weight_decay }

/-- The model input mapping: an opaque encoded payload plus the `labels`
field read by `step` (line 68). Tensors are nested lists; a row per batch
element. -/
structure Encoded where
  input_ids : List (List ℤ)
  labels : List (List ℤ)

/-- The model's forward output: `logits` of shape [batch, seq, vocab] and
a scalar `loss` (external model contract, spec section 6). -/
structure ModelOutput where
  logits : List (List (List ℚ))
  loss : ℚ

/-- The opaque model collaborator: a forward pass parameterized by the
training-mode flag set via `.train()` / `.eval()`, and a `generate`
operation returning one token-id sequence per batch element. -/
structure Model where
  run : Bool → Encoded → ModelOutput
  generate : Encoded → List (List ℤ)

/-- The tokenizer collaborator: `batch_decode(sequences,
skip_special_tokens, clean_up_tokenization_spaces)` returning one string
per sequence. -/
structure Tokenizer where
  batch_decode : List (List ℤ) → Bool → Bool → List String

/-- A batch: the `encoded` model input and the `index` sample ids
(lines 67-69). -/
structure Batch where
  encoded : Encoded
  index : List ℤ

/-- Lines 48-60: `forward` sets the model to training mode for
`"train"`, to inference mode for `"eval"`, then invokes it; any other
mode raises `ValueError(f"Invalid model mode: {mode}")` (the spec's
`InvalidModeError`). -/
def forward (m : Model) (encoded : Encoded) (mode : String) :
    Except String ModelOutput :=
  if mode = "train" then .ok (m.run true encoded)
  else if mode = "eval" then .ok (m.run false encoded)
  else .error ("Invalid model mode: " ++ mode)

/-- Index of the first maximal element of a row (torch.argmax over the
last axis). -/
def argmaxAux : List ℚ → ℕ → ℕ → ℚ → ℕ
  | [], _, bi, _ => bi
  | x :: rest, i, bi, bv =>
      if bv < x then argmaxAux rest (i + 1) i x
      else argmaxAux rest (i + 1) bi bv

def argmax : List ℚ → ℕ
  | [] => 0
  | x :: rest => argmaxAux rest 1 0 x

/-- Lines 75-78: `pred = torch.argmax(logit, dim=-1)` over a
[batch, seq, vocab] tensor. -/
def argmaxLast (logit : List (List (List ℚ))) : List (List ℕ) :=
  logit.map (fun row => row.map argmax)

/-- The values a `step` result dictionary can hold. -/
inductive TVal where
  | scalar (x : ℚ)
  | tens3 (t : List (List (List ℚ)))
  | idxs (t : List (List ℕ))
  | toks (t : List (List ℤ))
  | strs (s : List String)
  | ints (i : List ℤ)
deriving DecidableEq

/-- Lines 62-111: `step(batch, mode)`. Extracts `encoded`, `label`,
`index`, calls `forward`, computes `pred`, and returns the train
dictionary for `mode == "train"` or the eval dictionary (with
generation and decoding) otherwise. -/
def step (m : Model) (tok : Tokenizer) (batch : Batch) (mode : String) :
    Except String (List (String × TVal)) := do
  let encoded := batch.encoded
  let label := encoded.labels
  let index := batch.index
  let output ← forward m encoded mode
  let logit := output.logits
  let pred := argmaxLast logit
  let loss := output.loss
  if mode = "train" then
    return [("loss", .scalar loss), ("logit", .tens3 logit),
      ("pred", .idxs pred), ("label", .toks label), ("index", .ints index)]
  else
    let generation := m.generate encoded
    let decoded_generation := tok.batch_decode generation true false
    let decoded_label := tok.batch_decode label true false
    return [("loss", .scalar loss), ("logit", .tens3 logit),
      ("pred", .idxs pred), ("generation", .toks generation),
      ("decoded_generation", .strs decoded_generation),
      ("label", .toks label), ("decoded_label", .strs decoded_label),
      ("index", .ints index)]

/-- External torchmetrics contract: a metric accumulator holds the
(prediction, target) sample pairs recorded since the last reset; `reset`
returns it to the fresh empty state. -/
structure MetricAccumulator where
  samples : List (String × String)
deriving DecidableEq

def MetricAccumulator.reset (_ : MetricAccumulator) : MetricAccumulator :=
  { samples := [] }

/-- The module's mutable metric state: the two accumulators instantiated
in `__init__` (lines 45-46). -/
structure MetricsState where
  val_metrics : MetricAccumulator
  test_metrics : MetricAccumulator
deriving DecidableEq

/-- Lines 304-305: `on_train_epoch_end` is `pass`. -/
def on_train_epoch_end (s : MetricsState) : MetricsState := s

/-- Lines 307-308: `on_validation_epoch_end` calls
`self.val_metrics.reset()`. -/
def on_validation_epoch_end (s : MetricsState) : MetricsState :=
  { s with val_metrics := s.val_metrics.reset }

/-- Lines 310-311: `on_test_epoch_end` calls `self.test_metrics.reset()`. -/
def on_test_epoch_end (s : MetricsState) : MetricsState :=
  { s with test_metrics := s.test_metrics.reset }

/-- Lines 284-302: `predict_step`. Generation and decoding only (no
forward pass, no loss); builds the dictionary
`{index[i]: decoded_generation[i] for i in range(len(index))}`. -/
def predict_step (m : Model) (tok : Tokenizer) (b : Batch) :
    List (ℤ × String) :=
  let index := b.index
  let generation := m.generate b.encoded
  let decoded_generation := tok.batch_decode generation true false
  (List.range index.length).map
    (fun i => (index.getD i 0, decoded_generation.getD i ""))

/-- External contract of `self.all_gather` over the workers' partial
mappings (spec section 4.1): every worker receives the union of all
workers' mappings. -/
def all_gather (outputs : List (List (ℤ × String))) : List (ℤ × String) :=
  outputs.flatten

/-- A concrete model used to instantiate the abstract collaborators:
`generate` echoes the labels, the forward pass returns fixed logits and a
mode-dependent loss. -/
def mExample : Model :=
  { run := fun training _ =>
      { logits := [[[1, 2], [3, 0]], [[0, 4], [5, 1]]],
        loss := if training then 5 else 7 },
    generate := fun e => e.labels }

/-- A concrete tokenizer: decodes each sequence to the string of its
length (one output string per input sequence). -/
def tokExample : Tokenizer :=
  { batch_decode := fun seqs _ _ => seqs.map (fun s => toString s.length) }

/-- A concrete tokenizer decoding every sequence to the empty string
(e.g. generations consisting solely of special tokens, which are
skipped). -/
def tokEmptyDecode : Tokenizer :=
  { batch_decode := fun seqs _ _ => seqs.map (fun _ => "") }

/-- A concrete two-element batch. -/
def bExample : Batch :=
  { encoded := { input_ids := [[1], [2]], labels := [[10, 11], [12]] },
    index := [0, 1] }

/-- C2: for `total_steps >= 1` and `warmup_ratio` in `[0,1]`,
`configure_optimizers` computes `warmup_steps = floor(total_steps *
warmup_ratio)`, `t_max = total_steps - warmup_steps`,
`eta_min = lr * eta_min_ratio`, and `0 <= warmup_steps <= total_steps`. -/
theorem configure_optimizers_schedule_state (total_steps : ℕ)
    (warmup_ratio lr eta_min_ratio : ℚ) (h1 : 1 ≤ total_steps)
    (h0 : 0 ≤ warmup_ratio) (hle : warmup_ratio ≤ 1) :
    warmup_steps_of total_steps warmup_ratio =
      ⌊(total_steps : ℚ) * warmup_ratio⌋ ∧
    t_max_of total_steps warmup_ratio =
      (total_steps : ℤ) - warmup_steps_of total_steps warmup_ratio ∧
    eta_min_of lr eta_min_ratio = lr * eta_min_ratio ∧
    0 ≤ warmup_steps_of total_steps warmup_ratio ∧
    warmup_steps_of total_steps warmup_ratio ≤ (total_steps : ℤ) := by
  have hx : (0 : ℚ) ≤ (total_steps : ℚ) * warmup_ratio :=
    mul_nonneg (by positivity) h0
  have hfloor : warmup_steps_of total_steps warmup_ratio =
      ⌊(total_steps : ℚ) * warmup_ratio⌋ := by
    simp [warmup_steps_of, pyInt, hx]
  refine ⟨hfloor, rfl, rfl, ?_, ?_⟩
  · rw [hfloor]
    exact Int.floor_nonneg.mpr hx
  · rw [hfloor]
    calc ⌊(total_steps : ℚ) * warmup_ratio⌋ ≤ ⌊(total_steps : ℚ)⌋ :=
          Int.floor_le_floor (mul_le_of_le_one_right (by positivity) hle)
      _ = (total_steps : ℤ) := Int.floor_natCast _

theorem configure_optimizers_schedule_state_witness :
    warmup_steps_of 100 (1/10) = ⌊(100 : ℚ) * (1/10)⌋ ∧
    t_max_of 100 (1/10) = ((100 : ℕ) : ℤ) - warmup_steps_of 100 (1/10) ∧
    eta_min_of 3 (1/100) = 3 * (1/100) ∧
    0 ≤ warmup_steps_of 100 (1/10) ∧
    warmup_steps_of 100 (1/10) ≤ ((100 : ℕ) : ℤ) :=
  configure_optimizers_schedule_state 100 (1/10) 3 (1/100)
    (by norm_num) (by norm_num) (by norm_num)

/-- C1: below `warmup_steps` the composed schedule is the linear ramp
`lr * (s / max(1, warmup_steps))`; from step `warmup_steps` on it is
exactly the cosine-anneal scheduler restarted at internal step
`s - warmup_steps` — the handoff happens exactly at the milestone, with
no blending of the two phases. -/
theorem sequentialLR_phase_split (lr eta_min : ℝ) (warmup_steps t_max s : ℕ) :
    (s < warmup_steps →
      sequentialLR lr eta_min warmup_steps t_max s =
        lr * ((s : ℝ) / ((max 1 warmup_steps : ℕ) : ℝ))) ∧
    (warmup_steps ≤ s →
      sequentialLR lr eta_min warmup_steps t_max s =
        cosineAnnealingLR lr eta_min t_max (s - warmup_steps)) := by
  constructor
  · intro h
    have hcast : ((lr_lambda warmup_steps s : ℚ) : ℝ) =
        (s : ℝ) / ((max 1 warmup_steps : ℕ) : ℝ) := by
      simp [lr_lambda, h]
    simp [sequentialLR, h, hcast]
  · intro h
    simp [sequentialLR, Nat.not_lt.mpr h]

theorem sequentialLR_phase_split_witness :
    sequentialLR 2 0 10 90 5 = 2 * (((5 : ℕ) : ℝ) / ((max 1 10 : ℕ) : ℝ)) ∧
    sequentialLR 2 0 10 90 12 = cosineAnnealingLR 2 0 90 (12 - 10) :=
  ⟨(sequentialLR_phase_split 2 0 10 90 5).1 (by decide),
   (sequentialLR_phase_split 2 0 10 90 12).2 (by decide)⟩

/-- C3 counterexample: with `warmup_steps = 10` and `lr = 1` the schedule
value at step 0 is `0 * lr`, not `lr * (1 / max(1, warmup_steps))` as the
claim states (`lr_lambda(0) = 0 / 10 = 0`). -/
theorem schedule_step0_counterexample :
    sequentialLR 1 0 10 90 0 ≠ 1 * (1 / ((max 1 10 : ℕ) : ℝ)) := by
  have h0 : sequentialLR 1 0 10 90 0 = 0 := by
    norm_num [sequentialLR, lr_lambda]
  rw [h0]
  norm_num

/-- C3 (amended): the schedule multiplier at step 0 is `0` when
`warmup_steps >= 1` (the ramp starts at `0/max(1,warmup_steps)`), and
exactly `1.0` when `warmup_steps == 0`; at step `warmup_steps` the
schedule takes the cosine-phase value, which equals the full `lr`
(ratio 1.0) at that boundary. -/
theorem schedule_boundary_values (lr eta_min : ℝ) (warmup_steps t_max : ℕ) :
    (1 ≤ warmup_steps → sequentialLR lr eta_min warmup_steps t_max 0 = 0) ∧
    (warmup_steps = 0 → sequentialLR lr eta_min warmup_steps t_max 0 = lr) ∧
    sequentialLR lr eta_min warmup_steps t_max warmup_steps =
      cosineAnnealingLR lr eta_min t_max 0 ∧
    cosineAnnealingLR lr eta_min t_max 0 = lr := by
  have hcos0 : cosineAnnealingLR lr eta_min t_max 0 = lr := by
    simp [cosineAnnealingLR]
    ring
  refine ⟨?_, ?_, ?_, hcos0⟩
  · intro h
    have hlt : 0 < warmup_steps := h
    simp [sequentialLR, hlt, lr_lambda]
  · intro h
    subst h
    simpa [sequentialLR] using hcos0
  · simp [sequentialLR]

theorem schedule_boundary_values_witness :
    sequentialLR 3 1 10 90 0 = 0 ∧ sequentialLR 3 1 0 100 0 = 3 :=
  ⟨(schedule_boundary_values 3 1 10 90).1 (by decide),
   (schedule_boundary_values 3 1 0 100).2.1 rfl⟩

/-- C10: the warmup multiplier `lr_lambda` always lies in `[0, 1]`, and
equals exactly `1.0` for every step at or beyond `warmup_steps`, so the
warmup component alone never scales the learning rate above `lr`. -/
theorem lr_lambda_bounded (warmup_steps current_step : ℕ) :
    0 ≤ lr_lambda warmup_steps current_step ∧
    lr_lambda warmup_steps current_step ≤ 1 ∧
    (warmup_steps ≤ current_step → lr_lambda warmup_steps current_step = 1) := by
  have hden : (0 : ℚ) < ((max 1 warmup_steps : ℕ) : ℚ) := by
    exact_mod_cast Nat.lt_of_lt_of_le Nat.zero_lt_one (le_max_left 1 warmup_steps)
  by_cases h : current_step < warmup_steps
  · refine ⟨?_, ?_, fun hle => ?_⟩
    · simp only [lr_lambda, if_pos h]
      positivity
    · simp only [lr_lambda, if_pos h]
      rw [div_le_one hden]
      exact_mod_cast Nat.le_of_lt (Nat.lt_of_lt_of_le h (le_max_right 1 warmup_steps))
    · omega
  · refine ⟨?_, ?_, fun hle => ?_⟩ <;> simp [lr_lambda, h]

theorem lr_lambda_bounded_witness :
    0 ≤ lr_lambda 10 15 ∧ lr_lambda 10 15 ≤ 1 ∧ lr_lambda 10 15 = 1 :=
  ⟨(lr_lambda_bounded 10 15).1, (lr_lambda_bounded 10 15).2.1,
   (lr_lambda_bounded 10 15).2.2 (by decide)⟩

/-- C4: `configure_optimizers` selects the optimizer purely by the
`strategy` string: `"deepspeed_stage_3"` gives `FusedAdam`,
`"deepspeed_stage_2_offload"` or `"deepspeed_stage_3_offload"` gives
`DeepSpeedCPUAdam`, and every other string gives `AdamW` with no error
raised, all constructed with the same `(parameters, lr, weight_decay)`. -/
theorem select_optimizer_dispatch (strategy : String) (lr weight_decay : ℚ) :
    (strategy = "deepspeed_stage_3" →
      select_optimizer strategy lr weight_decay =
        { kind := .fusedAdam, lr := lr, weight_decay := weight_decay }) ∧
    (strategy = "deepspeed_stage_2_offload" ∨
        strategy = "deepspeed_stage_3_offload" →
      select_optimizer strategy lr weight_decay =
        { kind := .deepSpeedCPUAdam, lr := lr, weight_decay := weight_decay }) ∧
    (strategy ≠ "deepspeed_stage_3" → strategy ≠ "deepspeed_stage_2_offload" →
      strategy ≠ "deepspeed_stage_3_offload" →
      select_optimizer strategy lr weight_decay =
        { kind := .adamW, lr := lr, weight_decay := weight_decay }) := by
  refine ⟨fun h => ?_, fun h => ?_, fun h1 h2 h3 => ?_⟩
  · subst h
    simp [select_optimizer]
  · rcases h with h | h <;> subst h <;> simp [select_optimizer]
  · simp [select_optimizer, h1, h2, h3]

theorem select_optimizer_dispatch_witness :
    select_optimizer "deepspeed_stage_3" 1 2 =
      { kind := .fusedAdam, lr := 1, weight_decay := 2 } ∧
    select_optimizer "deepspeed_stage_2_offload" 1 2 =
      { kind := .deepSpeedCPUAdam, lr := 1, weight_decay := 2 } ∧
    select_optimizer "unknown" 1 2 =
      { kind := .adamW, lr := 1, weight_decay := 2 } :=
  ⟨(select_optimizer_dispatch "deepspeed_stage_3" 1 2).1 rfl,
   (select_optimizer_dispatch "deepspeed_stage_2_offload" 1 2).2.1 (Or.inl rfl),
   (select_optimizer_dispatch "unknown" 1 2).2.2
     (by decide) (by decide) (by decide)⟩

/-- C7: `forward` raises the invalid-mode error for every mode other than
`"train"` or `"eval"` without invoking the model (the result is the same
for every model); `"train"` invokes the model in training mode and
`"eval"` in inference mode, returning the model's output. -/
theorem forward_mode_dispatch (m : Model) (encoded : Encoded) (mode : String) :
    (mode = "train" → forward m encoded mode = .ok (m.run true encoded)) ∧
    (mode = "eval" → forward m encoded mode = .ok (m.run false encoded)) ∧
    (mode ≠ "train" → mode ≠ "eval" →
      forward m encoded mode = .error ("Invalid model mode: " ++ mode) ∧
      ∀ m2 : Model, forward m2 encoded mode = forward m encoded mode) := by
  refine ⟨fun h => ?_, fun h => ?_, fun h1 h2 => ⟨?_, fun m2 => ?_⟩⟩
  · subst h
    rfl
  · subst h
    rfl
  · simp [forward, h1, h2]
  · simp [forward, h1, h2]

theorem forward_mode_dispatch_witness :
    forward mExample bExample.encoded "train" =
      .ok (mExample.run true bExample.encoded) ∧
    forward mExample bExample.encoded "eval" =
      .ok (mExample.run false bExample.encoded) ∧
    (forward mExample bExample.encoded "predict" =
        .error ("Invalid model mode: " ++ "predict") ∧
      ∀ m2 : Model, forward m2 bExample.encoded "predict" =
        forward mExample bExample.encoded "predict") :=
  ⟨(forward_mode_dispatch mExample bExample.encoded "train").1 rfl,
   (forward_mode_dispatch mExample bExample.encoded "eval").2.1 rfl,
   (forward_mode_dispatch mExample bExample.encoded "predict").2.2
     (by decide) (by decide)⟩

/-- C5: `step(batch, "train")` returns a dictionary with exactly the keys
`loss, logit, pred, label, index`, where `pred` is the argmax of `logit`
over its last axis, and never invokes the model's generation operation
(the result is unchanged under any replacement of `generate`). -/
theorem step_train_result (m : Model) (tok : Tokenizer) (b : Batch) :
    ∃ res, step m tok b "train" = .ok res ∧
      res.map Prod.fst = ["loss", "logit", "pred", "label", "index"] ∧
      res.lookup "loss" = some (.scalar (m.run true b.encoded).loss) ∧
      res.lookup "logit" = some (.tens3 (m.run true b.encoded).logits) ∧
      res.lookup "pred" =
        some (.idxs (argmaxLast (m.run true b.encoded).logits)) ∧
      res.lookup "label" = some (.toks b.encoded.labels) ∧
      res.lookup "index" = some (.ints b.index) ∧
      ∀ g : Encoded → List (List ℤ),
        step { m with generate := g } tok b "train" = step m tok b "train" :=
  ⟨_, rfl, rfl, rfl, rfl, rfl, rfl, rfl, fun _ => rfl⟩

/-- C6: `step(batch, "eval")` additionally runs generation on the encoded
input, decodes generations and labels with special tokens skipped and no
whitespace cleanup, returns the keys
`loss, logit, pred, generation, decoded_generation, label, decoded_label,
index`, and under the model/tokenizer contracts `decoded_generation` and
`decoded_label` each have length equal to the batch size. -/
theorem step_eval_result (m : Model) (tok : Tokenizer) (b : Batch)
    (hdec : ∀ seqs s c, (tok.batch_decode seqs s c).length = seqs.length)
    (hgen : (m.generate b.encoded).length = b.encoded.labels.length) :
    ∃ res, step m tok b "eval" = .ok res ∧
      res.map Prod.fst = ["loss", "logit", "pred", "generation",
        "decoded_generation", "label", "decoded_label", "index"] ∧
      res.lookup "generation" = some (.toks (m.generate b.encoded)) ∧
      res.lookup "decoded_generation" =
        some (.strs (tok.batch_decode (m.generate b.encoded) true false)) ∧
      res.lookup "decoded_label" =
        some (.strs (tok.batch_decode b.encoded.labels true false)) ∧
      (tok.batch_decode (m.generate b.encoded) true false).length =
        b.encoded.labels.length ∧
      (tok.batch_decode b.encoded.labels true false).length =
        b.encoded.labels.length := by
  refine ⟨_, rfl, rfl, rfl, rfl, rfl, ?_, ?_⟩
  · rw [hdec, hgen]
  · rw [hdec]

theorem step_eval_result_witness :
    ∃ res, step mExample tokExample bExample "eval" = .ok res ∧
      res.map Prod.fst = ["loss", "logit", "pred", "generation",
        "decoded_generation", "label", "decoded_label", "index"] ∧
      res.lookup "generation" =
        some (.toks (mExample.generate bExample.encoded)) ∧
      res.lookup "decoded_generation" =
        some (.strs (tokExample.batch_decode
          (mExample.generate bExample.encoded) true false)) ∧
      res.lookup "decoded_label" =
        some (.strs (tokExample.batch_decode
          bExample.encoded.labels true false)) ∧
      (tokExample.batch_decode
          (mExample.generate bExample.encoded) true false).length =
        bExample.encoded.labels.length ∧
      (tokExample.batch_decode bExample.encoded.labels true false).length =
        bExample.encoded.labels.length :=
  step_eval_result mExample tokExample bExample
    (fun seqs s c => by simp [tokExample]) rfl

/-- C8: `on_validation_epoch_end` empties only the validation accumulator
and leaves the test accumulator unchanged; `on_test_epoch_end` empties
only the test accumulator and leaves the validation accumulator
unchanged; `on_train_epoch_end` changes no state; after each reset the
accumulator holds no recorded samples. -/
theorem epoch_end_hooks_frame (s : MetricsState) :
    (on_validation_epoch_end s).val_metrics.samples = [] ∧
    (on_validation_epoch_end s).test_metrics = s.test_metrics ∧
    (on_test_epoch_end s).test_metrics.samples = [] ∧
    (on_test_epoch_end s).val_metrics = s.val_metrics ∧
    on_train_epoch_end s = s :=
  ⟨rfl, rfl, rfl, rfl, rfl⟩

/-- The `range`-indexed dictionary comprehension of `predict_step` equals
the elementwise pairing of `index` with `decoded_generation` when the
lengths agree. -/
theorem range_map_getD_zip {α β : Type} (a0 : α) (b0 : β) :
    ∀ (xs : List α) (ys : List β), ys.length = xs.length →
      (List.range xs.length).map (fun i => (xs.getD i a0, ys.getD i b0)) =
        xs.zip ys := by
  intro xs
  induction xs with
  | nil =>
      intro ys h
      simp
  | cons x xs ih =>
      intro ys h
      cases ys with
      | nil => simp at h
      | cons y ys =>
          rw [List.length_cons, List.range_succ_eq_map, List.map_cons,
            List.map_map]
          have hcomp : ((fun i => ((x :: xs).getD i a0, (y :: ys).getD i b0)) ∘
              Nat.succ) = fun i => (xs.getD i a0, ys.getD i b0) := rfl
          rw [hcomp]
          have h2 : ys.length = xs.length := by simpa using h
          rw [ih ys h2]
          rfl

/-- C9 counterexample: with a tokenizer whose decoding of the generated
sequences yields empty strings, `predict_step` maps index `0` to the
empty string, refuting that every key is mapped to a non-empty decoded
string. -/
theorem predict_step_empty_string_counterexample :
    predict_step mExample tokEmptyDecode bExample =
      [((0 : ℤ), ""), ((1 : ℤ), "")] ∧
    ((0 : ℤ), "") ∈ predict_step mExample tokEmptyDecode bExample ∧
    ¬ (∀ p ∈ predict_step mExample tokEmptyDecode bExample,
        p.2 ≠ "") := by
  refine ⟨rfl, ?_, ?_⟩
  · show ((0 : ℤ), "") ∈ [((0 : ℤ), ""), ((1 : ℤ), "")]
    exact List.mem_cons_self _ _
  · intro hall
    exact hall ((0 : ℤ), "")
      (show ((0 : ℤ), "") ∈ [((0 : ℤ), ""), ((1 : ℤ), "")] from
        List.mem_cons_self _ _) rfl

/-- C9 (amended): `predict_step` computes no loss and never runs the
forward pass (its result is unchanged under any replacement of the
model's forward operation); under the model/tokenizer contracts its
mapping pairs the batch's index values, in order, with the corresponding
decoded strings (which may be empty), so its keys are exactly the
batch's index values; `all_gather` holds the union of all workers'
partial mappings. -/
theorem predict_step_mapping (m : Model) (tok : Tokenizer) (b : Batch)
    (hgen : (m.generate b.encoded).length = b.index.length)
    (hdec : ∀ seqs s c, (tok.batch_decode seqs s c).length = seqs.length) :
    predict_step m tok b =
      b.index.zip (tok.batch_decode (m.generate b.encoded) true false) ∧
    (predict_step m tok b).map Prod.fst = b.index ∧
    (∀ r, predict_step { m with run := r } tok b = predict_step m tok b) ∧
    (∀ outputs : List (List (ℤ × String)), ∀ p,
      p ∈ all_gather outputs ↔ ∃ o ∈ outputs, p ∈ o) := by
  have hlen : (tok.batch_decode (m.generate b.encoded) true false).length =
      b.index.length := by
    rw [hdec, hgen]
  have hzip : predict_step m tok b =
      b.index.zip (tok.batch_decode (m.generate b.encoded) true false) :=
    range_map_getD_zip 0 "" b.index _ hlen
  refine ⟨hzip, ?_, fun r => rfl, fun outputs p => ?_⟩
  · rw [hzip]
    exact List.map_fst_zip _ _ (le_of_eq hlen.symm)
  · simp [all_gather, List.mem_flatten]

theorem predict_step_mapping_witness :
    predict_step mExample tokExample bExample =
      bExample.index.zip (tokExample.batch_decode
        (mExample.generate bExample.encoded) true false) ∧
    (predict_step mExample tokExample bExample).map Prod.fst =
      bExample.index ∧
    predict_step
        { mExample with run := fun _ _ => { logits := [], loss := 0 } }
        tokExample bExample =
      predict_step mExample tokExample bExample ∧
    (((7 : ℤ), "x") ∈ all_gather [[((7 : ℤ), "x")], []] ↔
      ∃ o ∈ [[((7 : ℤ), "x")], []], ((7 : ℤ), "x") ∈ o) := by
  obtain ⟨h1, h2, h3, h4⟩ := predict_step_mapping mExample tokExample bExample
    rfl (fun seqs s c => by simp [tokExample])
  exact ⟨h1, h2, h3 _, h4 _ _⟩

end HuggingFaceArchitecture
